import Mathlib

/-!
A shallow embedding of the core of the kalshi-weather-bot repository: the
day-of-year climatology model (`nyc_temperature_model.py`), the mispricing
analyzer (`mispricing_analyzer.py`), and the price fields of the market
contract parser (`kalshi_markets.py`).

Conventions of the embedding:
* Python floats are modelled by exact rationals (`ℚ`); Python `None` by
  `Option`; the pandas `NaN` results that the training code can store (the
  mean of an empty window, the `ddof=1` standard deviation of fewer than two
  samples) by `none`.
* Dates are represented by their day-of-year (`tm_yday` / `dt.dayofyear`),
  an integer in `[1, 366]`, which is the only part of a date the model reads.
* `scipy.stats.norm.cdf(x, mu, sigma)` is external library code; it is
  modelled by an abstract function `CdfFn` applied to the threshold and to
  the looked-up per-day statistics, and theorems that need its Gaussian
  properties take boundedness / monotonicity of that function as hypotheses.
  Since `sigma = sqrt(variance)` is irrational, the embedding stores the
  (rational) variance in `DoyStat`; `sigma ≥ 0` holds exactly when the
  variance is defined, i.e. is not the pandas `NaN`.
-/

namespace KalshiWeather

/-- One row of the historical dataframe handed to `NYCTemperatureModel.train`:
the day-of-year of its date (`df["doy"] = df["date"].dt.dayofyear`, an integer
in `[1, 366]`) and its `high_temp` entry, `none` standing for a `NaN` that
`.dropna()` removes. -/
structure Obs where
  doy : ℤ
  high_temp : Option ℚ
  deriving DecidableEq, Repr

/-- The year-boundary window test of `NYCTemperatureModel.train`
(`nyc_temperature_model.py` lines 37-53): for target day-of-year `d` and an
observation day-of-year `x`,
`if d - window < 1` the mask is `x ≥ 365 + d - window or x ≤ d + window`,
`elif d + window > 366` it is `x ≥ d - window or x ≤ d + window - 365`,
else it is `d - window ≤ x ≤ d + window`. -/
def windowMask (window d x : ℤ) : Bool :=
  if d - window < 1 then decide (365 + d - window ≤ x) || decide (x ≤ d + window)
  else if 366 < d + window then decide (d - window ≤ x) || decide (x ≤ d + window - 365)
  else decide (d - window ≤ x) && decide (x ≤ d + window)

/-- `temps = df.loc[mask, "high_temp"].dropna()`: the temperatures of the
observations selected by the window mask around day-of-year `d`. -/
def windowTemps (df : List Obs) (window d : ℤ) : List ℚ :=
  (df.filter (fun o => windowMask window d o.doy)).filterMap (fun o => o.high_temp)

/-- `temps.mean()`: the pandas mean, `NaN` (here `none`) on an empty series. -/
def listMean (l : List ℚ) : Option ℚ :=
  if l.length = 0 then none else some (l.sum / l.length)

/-- `temps.std(ddof=1)` squared: the unbiased sample variance
`Σ (x - mean)² / (n - 1)`, which pandas reports as `NaN` (here `none`) when
fewer than two samples are present.  The Python code stores
`sigma = sqrt` of this value; the embedding keeps the variance because the
square root is irrational (see the file comment). -/
def listVar (l : List ℚ) : Option ℚ :=
  if l.length < 2 then none
  else some ((l.map (fun x => (x - l.sum / l.length) ^ 2)).sum / ((l.length : ℚ) - 1))

/-- One trained entry: the day-of-year key shared by `mu_by_doy` and
`sigma_by_doy`, the stored mean and the stored (squared) standard deviation. -/
structure DoyStat where
  doy : ℤ
  mean : Option ℚ
  var : Option ℚ
  deriving DecidableEq, Repr

/-- `range(1, 367)`: the day-of-year keys the training loop visits. -/
def doyList : List ℤ := (List.range 366).map (fun (i : ℕ) => (i : ℤ) + 1)

/-- The entry `train` stores for a qualifying day-of-year `d`. -/
def trainStat (df : List Obs) (window d : ℤ) : DoyStat :=
  { doy := d
    mean := listMean (windowTemps df window d)
    var := listVar (windowTemps df window d) }

/-- `NYCTemperatureModel.train` (`nyc_temperature_model.py` lines 18-63): for
every day-of-year in `range(1, 367)` select the windowed observations, skip
the day if fewer than `min_samples` remain, otherwise store mean and
(squared) standard deviation.  The function is total: the Python code
contains no `raise` and returns the model even when no day qualifies. -/
def train (df : List Obs) (window : ℤ) (min_samples : ℕ) : List DoyStat :=
  (doyList.filter (fun d => decide (min_samples ≤ (windowTemps df window d).length))).map
    (trainStat df window)

/-- The wrap-around applied to a probed day inside `_params_for_date`:
`if test_doy < 1: test_doy += 365` / `elif test_doy > 365: test_doy -= 365`. -/
def wrapDoy (t : ℤ) : ℤ :=
  if t < 1 then t + 365 else if 365 < t then t - 365 else t

/-- The probe sequence of `_params_for_date`: for `offset` in `range(1, 183)`
try `doy - offset` then `doy + offset`, each wrapped by `wrapDoy`. -/
def probeList (doy : ℤ) : List ℤ :=
  (List.range 182).flatMap
    (fun (i : ℕ) => [wrapDoy (doy - ((i : ℤ) + 1)), wrapDoy (doy + ((i : ℤ) + 1))])

/-- Dictionary lookup `doy in self.mu_by_doy` / `self.mu_by_doy[doy]` on the
trained entries (the two dicts share their keys and are modelled as one
association list). -/
def findDoy : List DoyStat → ℤ → Option DoyStat
  | [], _ => none
  | s :: rest, d => if s.doy = d then some s else findDoy rest d

/-- The probe loop body of `_params_for_date`: return the entry of the first
probed day present in the model. -/
def probeFind (m : List DoyStat) : List ℤ → Option DoyStat
  | [] => none
  | t :: ts =>
    match findDoy m t with
    | some s => some s
    | none => probeFind m ts

/-- `NYCTemperatureModel._params_for_date` (`nyc_temperature_model.py` lines
65-86) at the day-of-year level: return the entry of the queried day if
present, otherwise the first hit of the probe sequence; `none` models the
`raise ValueError("No data available ...")` at the end. -/
def paramsForDoy (m : List DoyStat) (doy : ℤ) : Option DoyStat :=
  match findDoy m doy with
  | some s => some s
  | none => probeFind m (probeList doy)

/-- Modelled from the spec: the inclusion test of §4.1, "within `w` days of
`d`, measured on a circular scale where day 366 wraps to day 1".  Day 366 is
identified with day 1 and the distance is taken on the 365-day ring, so `x`
is within `w` of `d` iff `|pd - px| ≤ w` or `365 - |pd - px| ≤ w` for the
identified positions.  This is the spec-side definition that claim C6
compares with the source-side `windowMask`. -/
def circWithin (w d x : ℤ) : Bool :=
  (decide ((if d = 366 then 1 else d) - (if x = 366 then 1 else x) ≤ w) &&
    decide ((if x = 366 then 1 else x) - (if d = 366 then 1 else d) ≤ w)) ||
  decide (365 - w ≤ (if d = 366 then 1 else d) - (if x = 366 then 1 else x)) ||
  decide (365 - w ≤ (if x = 366 then 1 else x) - (if d = 366 then 1 else d))

/-- Modelled from the spec: `scipy.stats.norm.cdf(x, mu, sigma)` (the
Gaussian CDF used by the probability API, §4.1 of the spec) is external
library code.  It is modelled as an abstract function of the threshold and of
the looked-up per-day statistics; theorems that need Gaussian behaviour
assume boundedness in `[0,1]` and monotonicity in the threshold. -/
def CdfFn : Type := ℚ → DoyStat → ℚ

/-- `prob_greater_than`: `1 - norm.cdf(x, mu, sigma)`; `none` when the
parameter lookup raises. -/
def prob_greater_than (m : List DoyStat) (cdf : CdfFn) (x : ℚ) (d : ℤ) : Option ℚ :=
  (paramsForDoy m d).map (fun s => 1 - cdf x s)

/-- `prob_less_than`: `norm.cdf(x, mu, sigma)`. -/
def prob_less_than (m : List DoyStat) (cdf : CdfFn) (x : ℚ) (d : ℤ) : Option ℚ :=
  (paramsForDoy m d).map (fun s => cdf x s)

/-- `prob_greater_equal(x) = prob_greater_than(x - 0.01)`. -/
def prob_greater_equal (m : List DoyStat) (cdf : CdfFn) (x : ℚ) (d : ℤ) : Option ℚ :=
  prob_greater_than m cdf (x - 1/100) d

/-- `prob_less_equal(x) = prob_less_than(x + 0.01)`. -/
def prob_less_equal (m : List DoyStat) (cdf : CdfFn) (x : ℚ) (d : ℤ) : Option ℚ :=
  prob_less_than m cdf (x + 1/100) d

/-- `prob_range(low, high, inclusive_low, inclusive_high)`
(`nyc_temperature_model.py` lines 145-166): shift the bounds by the 0.01
inclusivity correction and return `norm.cdf(high') - norm.cdf(low')`. -/
def prob_range (m : List DoyStat) (cdf : CdfFn) (low high : ℚ) (d : ℤ)
    (inclusive_low inclusive_high : Bool) : Option ℚ :=
  (paramsForDoy m d).map (fun s =>
    cdf (if inclusive_high then high + 1/100 else high) s -
      cdf (if inclusive_low then low else low + 1/100) s)

/-- A parsed contract as produced by `MarketContractParser.parse_contract`.
`date` is the day-of-year of the resolved target date (`none` when the title
has no parsable date); `temperature` the extracted threshold; prices are in
`[0,1]` dollars. -/
structure Contract where
  ticker : String
  title : String
  event_ticker : String
  yes_bid : Option ℚ
  yes_ask : Option ℚ
  yes_mid : Option ℚ
  volume : ℤ
  temperature : Option ℚ
  date : Option ℤ
  contract_type : String
  deriving DecidableEq, Repr

/-- `MispricingAnalyzer.calculate_model_probability`
(`mispricing_analyzer.py` lines 27-65): `None` without a date or a
threshold; `greater_than` and `range` call `prob_greater_equal`,
`less_than` calls `prob_less_equal`, any other type gives `None`.  A `none`
from the probability query models the caught exception of the
`try`/`except` block. -/
def calculate_model_probability (m : List DoyStat) (cdf : CdfFn) (c : Contract) :
    Option ℚ :=
  match c.date with
  | none => none
  | some d =>
    match c.temperature with
    | none => none
    | some t =>
      if c.contract_type = "greater_than" then prob_greater_equal m cdf t d
      else if c.contract_type = "less_than" then prob_less_equal m cdf t d
      else if c.contract_type = "range" then prob_greater_equal m cdf t d
      else none

/-- `MispricingAnalyzer.calculate_expected_value`: `model_prob - yes_mid`,
`None` when the contract has no `yes_mid`. -/
def calculate_expected_value (c : Contract) (model_prob : ℚ) : Option ℚ :=
  c.yes_mid.map (fun mp => model_prob - mp)

/-- `MispricingAnalyzer.calculate_kelly_fraction`
(`mispricing_analyzer.py` lines 87-111): guard `0 < market_price < 1` and
`0 < model_prob < 1`, compute `odds = 1/price - 1` and
`kelly = (odds*p - (1-p))/odds`, and return `max(0.0, kelly)` only when
`kelly > 0`. -/
def calculate_kelly_fraction (c : Contract) (model_prob : ℚ) : Option ℚ :=
  match c.yes_mid with
  | none => none
  | some mp =>
    if mp ≤ 0 ∨ 1 ≤ mp then none
    else if model_prob ≤ 0 ∨ 1 ≤ model_prob then none
    else
      let odds := 1 / mp - 1
      let kelly := (odds * model_prob - (1 - model_prob)) / odds
      if 0 < kelly then some (max 0 kelly) else none

/-- The per-contract analysis record returned by `analyze_contract`. -/
structure Analysis where
  contract : Contract
  model_probability : Option ℚ
  market_price : Option ℚ
  expected_value : Option ℚ
  kelly_fraction : Option ℚ
  edge : Option ℚ
  analysis_status : String
  deriving DecidableEq, Repr

/-- Python truthiness of the optional price: `if market_price` is false for
`None` and for `0.0`. -/
def truthyPrice : Option ℚ → Bool
  | none => false
  | some x => decide (x ≠ 0)

/-- `MispricingAnalyzer.analyze_contract` (`mispricing_analyzer.py` lines
113-146): status `cannot_evaluate` when no model probability exists;
otherwise status `complete` with `expected_value` and `edge` computed only
when `market_price` is truthy (so `yes_mid` of `None` or `0.0` leaves both
undefined). -/
def analyze_contract (m : List DoyStat) (cdf : CdfFn) (c : Contract) : Analysis :=
  match calculate_model_probability m cdf c with
  | none =>
    { contract := c, model_probability := none, market_price := c.yes_mid
      expected_value := none, kelly_fraction := none, edge := none
      analysis_status := "cannot_evaluate" }
  | some p =>
    { contract := c, model_probability := some p, market_price := c.yes_mid
      expected_value := if truthyPrice c.yes_mid then calculate_expected_value c p else none
      kelly_fraction := calculate_kelly_fraction c p
      edge := if truthyPrice c.yes_mid then c.yes_mid.map (fun mp => p - mp) else none
      analysis_status := "complete" }

/-- The edge filter of `analyze_contracts`:
`analysis["edge"] is not None and analysis["edge"] >= min_edge`. -/
def edgeOK (min_edge : ℚ) (a : Analysis) : Bool :=
  match a.edge with
  | some e => decide (min_edge ≤ e)
  | none => false

/-- The ordering used to model
`df.sort_values("expected_value", ascending=False)` with missing values
last: `a` may precede `b` iff `a`'s expected value is defined and at least
`b`'s, or `b`'s is missing. -/
def evBefore (a b : Analysis) : Bool :=
  match a.expected_value, b.expected_value with
  | some x, some y => decide (y ≤ x)
  | some _, none => true
  | none, some _ => false
  | none, none => true

/-- Insertion step of the deterministic descending sort. -/
def insertEV (a : Analysis) : List Analysis → List Analysis
  | [] => [a]
  | b :: bs => if evBefore a b then a :: b :: bs else b :: insertEV a bs

/-- The sort by expected value, descending, missing values last (the
intended semantics of the `sort_values` call of `analyze_contracts`). -/
def sortEV (l : List Analysis) : List Analysis :=
  l.foldr insertEV []

/-- The accumulation loop of `MispricingAnalyzer.analyze_contracts`
(`mispricing_analyzer.py` lines 162-173): skip a contract whose volume is
below `min_volume` (`continue`), analyze it, and append the analysis only
when its edge is defined and at least `min_edge`. -/
def analyzeLoop (m : List DoyStat) (cdf : CdfFn) (min_edge : ℚ) (min_volume : ℤ) :
    List Contract → List Analysis → List Analysis
  | [], acc => acc
  | c :: cs, acc =>
    analyzeLoop m cdf min_edge min_volume cs
      (if c.volume < min_volume then acc
       else if edgeOK min_edge (analyze_contract m cdf c) then
         acc ++ [analyze_contract m cdf c]
       else acc)

/-- `MispricingAnalyzer.analyze_contracts`: run the loop, then sort by
expected value descending (an empty result stays empty). -/
def analyze_contracts (m : List DoyStat) (cdf : CdfFn) (cs : List Contract)
    (min_edge : ℚ) (min_volume : ℤ) : List Analysis :=
  sortEV (analyzeLoop m cdf min_edge min_volume cs [])

/-- One opportunity row built by `get_opportunities` from an analysis. -/
structure Opp where
  ticker : String
  title : String
  date : Option ℤ
  temperature : Option ℚ
  model_probability : Option ℚ
  market_price : Option ℚ
  edge : Option ℚ
  expected_value : Option ℚ
  kelly_fraction : Option ℚ
  volume : ℤ
  contract_type : String
  deriving DecidableEq, Repr

/-- The projection applied to each of the first `max_results` rows inside
`get_opportunities` (`mispricing_analyzer.py` lines 208-222). -/
def toOpp (a : Analysis) : Opp :=
  { ticker := a.contract.ticker
    title := a.contract.title
    date := a.contract.date
    temperature := a.contract.temperature
    model_probability := a.model_probability
    market_price := a.market_price
    edge := a.edge
    expected_value := a.expected_value
    kelly_fraction := a.kelly_fraction
    volume := a.contract.volume
    contract_type := a.contract.contract_type }

/-- `MispricingAnalyzer.get_opportunities` (`mispricing_analyzer.py` lines
186-224): analyze, keep the first `max_results` rows (`df.head`), and
project each row to an opportunity record. -/
def get_opportunities (m : List DoyStat) (cdf : CdfFn) (cs : List Contract)
    (min_edge : ℚ) (min_volume : ℤ) (max_results : ℕ) : List Opp :=
  ((analyze_contracts m cdf cs min_edge min_volume).take max_results).map toOpp

/-- Modelled from the spec: the ranking pipeline of §4.4 / claim C1, stated
with list combinators exactly in the spec's order — drop contracts below the
volume floor, analyze, drop undefined or too-small edges, sort by expected
value descending with missing values last, truncate to the cap, project.
Claim C1 compares this with the source-side `get_opportunities`. -/
def rankSpec (m : List DoyStat) (cdf : CdfFn) (cs : List Contract)
    (min_edge : ℚ) (min_volume : ℤ) (max_results : ℕ) : List Opp :=
  ((sortEV ((((cs.filter (fun c => decide (min_volume ≤ c.volume))).map
      (analyze_contract m cdf)).filter (edgeOK min_edge)))).take max_results).map toOpp

/-- A raw market record as fetched from the API: prices in integer cents,
absent fields as `none`.  The regex extraction of threshold, date and type
from the title is out of core scope; `parse_contract` takes their results as
arguments. -/
structure RawMarket where
  ticker : String
  title : String
  event_ticker : String
  yes_bid : Option ℤ
  yes_ask : Option ℤ
  volume : ℤ
  status : String
  deriving DecidableEq, Repr

/-- One price side of `MarketContractParser.parse_contract`
(`kalshi_markets.py` lines 181-184):
`market.get("yes_bid", 0) / 100.0 if market.get("yes_bid") else None`, so an
absent side or a raw price of `0` cents both parse to `None`. -/
def parseSide : Option ℤ → Option ℚ
  | none => none
  | some v => if v = 0 then none else some ((v : ℚ) / 100)

/-- The mid-price computation of `parse_contract` (`kalshi_markets.py` lines
195-202): the average when both sides are present, else the present side,
else `None`. -/
def mkMid : Option ℚ → Option ℚ → Option ℚ
  | some b, some a => some ((b + a) / 2)
  | some b, none => some b
  | none, some a => some a
  | none, none => none

/-- `MarketContractParser.parse_contract` restricted to the fields the core
reads; `temp`, `d` and `ct` are the results of the title regex parsers. -/
def parse_contract (mkt : RawMarket) (temp : Option ℚ) (d : Option ℤ)
    (ct : String) : Contract :=
  { ticker := mkt.ticker
    title := mkt.title
    event_ticker := mkt.event_ticker
    yes_bid := parseSide mkt.yes_bid
    yes_ask := parseSide mkt.yes_ask
    yes_mid := mkMid (parseSide mkt.yes_bid) (parseSide mkt.yes_ask)
    volume := mkt.volume
    temperature := temp
    date := d
    contract_type := ct }

/-- A concrete computable instance of `CdfFn` used by witnesses and
counterexamples: a clamped linear ramp through the stored mean.  It satisfies
the two properties the theorems assume of the Gaussian CDF — values in
`[0,1]` and monotonicity in the threshold (`linCdf_nonneg`, `linCdf_le_one`,
`linCdf_mono` below). -/
def linCdf : CdfFn :=
  fun x s => max 0 (min 1 ((x - s.mean.getD 0) / 20 + 1/2))

/-- Two observations on day-of-year 1; training with `window = 7` and
`min_samples = 2` gives a small but fully regular model (every stored day has
mean 50 and sample variance 200). -/
def df2 : List Obs := [{ doy := 1, high_temp := some 40 }, { doy := 1, high_temp := some 60 }]

/-- The concrete trained model used by witnesses and counterexamples. -/
def m2 : List DoyStat := train df2 7 2

/-- A single observation on day-of-year 1; training with `window = 0` and
`min_samples = 1` stores exactly day 1, with an undefined (`NaN`) standard
deviation. -/
def df01 : List Obs := [{ doy := 1, high_temp := some 50 }]

/-- A contract of type `"unknown"` that carries a date, a threshold and a
price. -/
def cUnknown : Contract :=
  { ticker := "KXHIGHNY-U", title := "NYC high temp", event_ticker := ""
    yes_bid := none, yes_ask := none, yes_mid := some (1/2), volume := 10
    temperature := some 45, date := some 1, contract_type := "unknown" }

/-- A `greater_than` contract with date and threshold but no market price. -/
def cNoPrice : Contract :=
  { ticker := "KXHIGHNY-N", title := "NYC high temp above 45", event_ticker := ""
    yes_bid := none, yes_ask := none, yes_mid := none, volume := 10
    temperature := some 45, date := some 1, contract_type := "greater_than" }

/-- A contract priced at `yes_mid = 0.5`. -/
def cHalf : Contract :=
  { ticker := "KXHIGHNY-H", title := "NYC high temp above 45", event_ticker := ""
    yes_bid := some (1/2), yes_ask := some (1/2), yes_mid := some (1/2), volume := 10
    temperature := some 45, date := some 1, contract_type := "greater_than" }

/-- A contract whose title has no parsable target date. -/
def cNoDate : Contract :=
  { ticker := "KXHIGHNY-D", title := "NYC high temp above 45", event_ticker := ""
    yes_bid := none, yes_ask := none, yes_mid := some (1/2), volume := 10
    temperature := some 45, date := none, contract_type := "greater_than" }

/-- A contract whose mid price is exactly `0.0`. -/
def cZero : Contract :=
  { ticker := "KXHIGHNY-Z", title := "NYC high temp above 45", event_ticker := ""
    yes_bid := none, yes_ask := none, yes_mid := some 0, volume := 10
    temperature := some 45, date := some 1, contract_type := "greater_than" }

/-- A raw market record whose `yes_bid` is 0 cents. -/
def mkt0 : RawMarket :=
  { ticker := "KXHIGHNY-M", title := "NYC high temp above 45", event_ticker := ""
    yes_bid := some 0, yes_ask := some 55, volume := 5, status := "open" }

lemma windowMask_eq_true_iff (w d x : ℤ) :
    windowMask w d x = true ↔
      ((d - w < 1 ∧ (365 + d - w ≤ x ∨ x ≤ d + w)) ∨
       (1 ≤ d - w ∧ 366 < d + w ∧ (d - w ≤ x ∨ x ≤ d + w - 365)) ∨
       (1 ≤ d - w ∧ d + w ≤ 366 ∧ d - w ≤ x ∧ x ≤ d + w)) := by
  unfold windowMask
  split_ifs with h1 h2 <;> simp <;> omega

lemma circWithin_eq_true_iff (w d x : ℤ) :
    circWithin w d x = true ↔
      (((if d = 366 then 1 else d) - (if x = 366 then 1 else x) ≤ w ∧
        (if x = 366 then 1 else x) - (if d = 366 then 1 else d) ≤ w) ∨
       365 - w ≤ (if d = 366 then 1 else d) - (if x = 366 then 1 else x) ∨
       365 - w ≤ (if x = 366 then 1 else x) - (if d = 366 then 1 else d)) := by
  unfold circWithin
  simp
  tauto

lemma windowMask_366_eq_one {w : ℤ} (hw : 1 ≤ w) (x : ℤ) :
    windowMask w 366 x = windowMask w 1 x := by
  rw [Bool.eq_iff_iff, windowMask_eq_true_iff, windowMask_eq_true_iff]
  omega

lemma windowTemps_366 {df : List Obs} {w : ℤ} (hw : 1 ≤ w) :
    windowTemps df w 366 = windowTemps df w 1 := by
  unfold windowTemps
  congr 1
  apply List.filter_congr
  intro o _
  exact windowMask_366_eq_one hw o.doy

lemma mem_doyList {d : ℤ} : d ∈ doyList ↔ 1 ≤ d ∧ d ≤ 366 := by
  constructor
  · intro h
    obtain ⟨i, hi, hd⟩ := List.mem_map.mp h
    have hi2 := List.mem_range.mp hi
    omega
  · intro h
    exact List.mem_map.mpr ⟨(d - 1).toNat, List.mem_range.mpr (by omega), by omega⟩

lemma trainStat_mem {df : List Obs} {w : ℤ} {ms : ℕ} {d : ℤ} (h1 : 1 ≤ d) (h2 : d ≤ 366)
    (hq : ms ≤ (windowTemps df w d).length) : trainStat df w d ∈ train df w ms := by
  simp only [train, List.mem_map]
  exact ⟨d, List.mem_filter.mpr ⟨mem_doyList.mpr ⟨h1, h2⟩, by simpa using hq⟩, rfl⟩

lemma of_mem_train {df : List Obs} {w : ℤ} {ms : ℕ} {s : DoyStat} (h : s ∈ train df w ms) :
    (1 ≤ s.doy ∧ s.doy ≤ 366) ∧ ms ≤ (windowTemps df w s.doy).length ∧
      s = trainStat df w s.doy := by
  simp only [train, List.mem_map, List.mem_filter] at h
  obtain ⟨d, ⟨hdl, hq⟩, rfl⟩ := h
  rw [decide_eq_true_eq] at hq
  exact ⟨mem_doyList.mp hdl, hq, rfl⟩

lemma findDoy_isSome_of {m : List DoyStat} {d : ℤ} (h : ∃ s ∈ m, s.doy = d) :
    (findDoy m d).isSome = true := by
  induction m with
  | nil => simp at h
  | cons a rest ih =>
    simp only [findDoy]
    split_ifs with hh
    · rfl
    · apply ih
      rcases h with ⟨s, hs, hd⟩
      rcases List.mem_cons.mp hs with h1 | h2
      · exact absurd (h1 ▸ hd) hh
      · exact ⟨s, h2, hd⟩

lemma findDoy_none_forall {m : List DoyStat} {d : ℤ} (h : findDoy m d = none) :
    ∀ s ∈ m, s.doy ≠ d := by
  induction m with
  | nil => simp
  | cons a rest ih =>
    intro s hs
    simp only [findDoy] at h
    by_cases hh : a.doy = d
    · rw [if_pos hh] at h
      exact Option.noConfusion h
    · rw [if_neg hh] at h
      rcases List.mem_cons.mp hs with h1 | h2
      · subst h1; exact hh
      · exact ih h s h2

lemma probeFind_isSome {m : List DoyStat} {ts : List ℤ}
    (h : ∃ t ∈ ts, (findDoy m t).isSome = true) : (probeFind m ts).isSome = true := by
  induction ts with
  | nil => simp at h
  | cons t rest ih =>
    rcases h with ⟨u, hu, hsome⟩
    simp only [probeFind]
    cases hft : findDoy m t with
    | some s => rfl
    | none =>
      apply ih
      rcases List.mem_cons.mp hu with h1 | h2
      · subst h1; rw [hft] at hsome; simp at hsome
      · exact ⟨u, h2, hsome⟩

lemma probeFind_nil (ts : List ℤ) : probeFind [] ts = none := by
  induction ts with
  | nil => rfl
  | cons t rest ih => simp only [probeFind, findDoy]; exact ih

lemma mem_probeList {doy t : ℤ} (ht1 : 1 ≤ t) (ht2 : t ≤ 365)
    (hd1 : 1 ≤ doy) (hd2 : doy ≤ 366) (hne : t ≠ doy)
    (hexc : ¬(t = 1 ∧ doy = 366)) : t ∈ probeList doy := by
  unfold probeList
  rw [List.mem_flatMap]
  rcases lt_or_gt_of_ne hne with hlt | hgt
  · by_cases hsmall : doy - t ≤ 182
    · refine ⟨(doy - t - 1).toNat, List.mem_range.mpr (by omega), ?_⟩
      have hw : wrapDoy (doy - (((doy - t - 1).toNat : ℤ) + 1)) = t := by
        unfold wrapDoy; split_ifs <;> omega
      simp only [List.mem_cons]
      exact Or.inl hw.symm
    · refine ⟨(t + 365 - doy - 1).toNat, List.mem_range.mpr (by omega), ?_⟩
      have hw : wrapDoy (doy + (((t + 365 - doy - 1).toNat : ℤ) + 1)) = t := by
        unfold wrapDoy; split_ifs <;> omega
      simp only [List.mem_cons]
      exact Or.inr (Or.inl hw.symm)
  · by_cases hsmall : t - doy ≤ 182
    · refine ⟨(t - doy - 1).toNat, List.mem_range.mpr (by omega), ?_⟩
      have hw : wrapDoy (doy + (((t - doy - 1).toNat : ℤ) + 1)) = t := by
        unfold wrapDoy; split_ifs <;> omega
      simp only [List.mem_cons]
      exact Or.inr (Or.inl hw.symm)
    · refine ⟨(doy + 365 - t - 1).toNat, List.mem_range.mpr (by omega), ?_⟩
      have hw : wrapDoy (doy - (((doy + 365 - t - 1).toNat : ℤ) + 1)) = t := by
        unfold wrapDoy; split_ifs <;> omega
      simp only [List.mem_cons]
      exact Or.inl hw.symm

lemma paramsForDoy_trained_isSome {df : List Obs} {w : ℤ} {ms : ℕ} (hw : 1 ≤ w)
    {doy : ℤ} (h1 : 1 ≤ doy) (h2 : doy ≤ 366)
    (hne : train df w ms ≠ []) :
    (paramsForDoy (train df w ms) doy).isSome = true := by
  cases hf : findDoy (train df w ms) doy with
  | some s => simp [paramsForDoy, hf]
  | none =>
    simp only [paramsForDoy, hf]
    obtain ⟨s0, hs0⟩ := List.exists_mem_of_ne_nil _ hne
    obtain ⟨⟨hd1, hd2⟩, hq, _⟩ := of_mem_train hs0
    have hall := findDoy_none_forall hf
    have hs0ne : s0.doy ≠ doy := hall s0 hs0
    apply probeFind_isSome
    by_cases hc1 : s0.doy = 366
    · have hq1 : ms ≤ (windowTemps df w 1).length := by
        rw [hc1] at hq
        rwa [windowTemps_366 hw] at hq
      have hmem1 : trainStat df w 1 ∈ train df w ms :=
        trainStat_mem (by omega) (by omega) hq1
      have hfind1 : (findDoy (train df w ms) 1).isSome = true :=
        findDoy_isSome_of ⟨_, hmem1, rfl⟩
      have hdoyne : doy ≠ 366 := fun h => hs0ne (by rw [hc1, h])
      have h1ne : (1 : ℤ) ≠ doy := by
        intro h
        rw [← h] at hf
        rw [hf] at hfind1
        simp at hfind1
      exact ⟨1, mem_probeList (by omega) (by omega) h1 h2 h1ne (by omega), hfind1⟩
    · by_cases hc2 : s0.doy = 1 ∧ doy = 366
      · have hq366 : ms ≤ (windowTemps df w 366).length := by
          rw [hc2.1] at hq
          rwa [← windowTemps_366 hw] at hq
        have hmem366 : trainStat df w 366 ∈ train df w ms :=
          trainStat_mem (by omega) (by omega) hq366
        have hfind366 : (findDoy (train df w ms) 366).isSome = true :=
          findDoy_isSome_of ⟨_, hmem366, rfl⟩
        rw [hc2.2] at hf
        rw [hf] at hfind366
        simp at hfind366
      · exact ⟨s0.doy, mem_probeList hd1 (by omega) h1 h2 hs0ne hc2,
          findDoy_isSome_of ⟨s0, hs0, rfl⟩⟩

lemma train_eq_nil_of {df : List Obs} {w : ℤ} {ms : ℕ}
    (h : ∀ d, 1 ≤ d → d ≤ 366 → (windowTemps df w d).length < ms) :
    train df w ms = [] := by
  unfold train
  rw [List.map_eq_nil_iff, List.filter_eq_nil_iff]
  intro d hd
  have := mem_doyList.mp hd
  simpa using Nat.not_le.mpr (h d this.1 this.2)

lemma paramsForDoy_nil (d : ℤ) : paramsForDoy [] d = none := by
  simp only [paramsForDoy, findDoy]
  exact probeFind_nil _

lemma listMean_bounds {l : List ℚ} (h : l ≠ []) :
    ∃ μ, listMean l = some μ ∧
      (∀ A, (∀ x ∈ l, A ≤ x) → A ≤ μ) ∧ (∀ B, (∀ x ∈ l, x ≤ B) → μ ≤ B) := by
  have hlen : 0 < l.length := List.length_pos.mpr h
  have hlenq : (0 : ℚ) < l.length := by exact_mod_cast hlen
  refine ⟨l.sum / l.length, ?_, ?_, ?_⟩
  · rw [listMean, if_neg (by omega)]
  · intro A hA
    have hs : l.length • A ≤ l.sum := List.card_nsmul_le_sum l A hA
    rw [nsmul_eq_mul] at hs
    rw [le_div_iff₀ hlenq]
    linarith [mul_comm A (l.length : ℚ)]
  · intro B hB
    have hs : l.sum ≤ l.length • B := List.sum_le_card_nsmul l B hB
    rw [nsmul_eq_mul] at hs
    rw [div_le_iff₀ hlenq]
    linarith [mul_comm B (l.length : ℚ)]

lemma listVar_nonneg {l : List ℚ} (h : 2 ≤ l.length) :
    ∃ v, listVar l = some v ∧ 0 ≤ v := by
  refine ⟨_, by rw [listVar, if_neg (by omega)], ?_⟩
  apply div_nonneg
  · apply List.sum_nonneg
    intro x hx
    obtain ⟨y, _, rfl⟩ := List.mem_map.mp hx
    positivity
  · have : (2 : ℚ) ≤ l.length := by exact_mod_cast h
    linarith

lemma linCdf_nonneg (x : ℚ) (s : DoyStat) : 0 ≤ linCdf x s := le_max_left 0 _

lemma linCdf_le_one (x : ℚ) (s : DoyStat) : linCdf x s ≤ 1 := by
  unfold linCdf
  exact max_le (by norm_num) (min_le_left _ _)

lemma linCdf_mono (s : DoyStat) {x y : ℚ} (h : x ≤ y) : linCdf x s ≤ linCdf y s := by
  unfold linCdf
  apply max_le_max le_rfl
  apply min_le_min le_rfl
  linarith

lemma analyzeLoop_eq (m : List DoyStat) (cdf : CdfFn) (e : ℚ) (v : ℤ) :
    ∀ (cs : List Contract) (acc : List Analysis),
      analyzeLoop m cdf e v cs acc =
        acc ++ ((cs.filter (fun c => decide (v ≤ c.volume))).map
          (analyze_contract m cdf)).filter (edgeOK e) := by
  intro cs
  induction cs with
  | nil => intro acc; simp [analyzeLoop]
  | cons c rest ih =>
    intro acc
    rw [analyzeLoop, List.filter_cons]
    by_cases hv : c.volume < v
    · rw [if_pos hv, if_neg (by simpa using not_le.mpr hv)]
      exact ih acc
    · rw [if_neg hv,
        if_pos (show decide (v ≤ c.volume) = true from by simpa using not_lt.mp hv),
        List.map_cons, List.filter_cons]
      by_cases he : edgeOK e (analyze_contract m cdf c) = true
      · rw [if_pos he, if_pos he, ih]
        simp
      · rw [if_neg he, if_neg he]
        exact ih acc

lemma df01_windowTemps : windowTemps df01 0 1 = [50] := by decide

lemma df01_train_eq : train df01 0 1 = [trainStat df01 0 1] := by rfl

lemma df01_stat : trainStat df01 0 1 = { doy := 1, mean := some 50, var := none } := by
  simp [trainStat, df01_windowTemps, listMean, listVar]

lemma df2_windowTemps : windowTemps df2 7 1 = [40, 60] := by decide

lemma m2_params_one : paramsForDoy m2 1 = some (trainStat df2 7 1) := by rfl

lemma df2_stat : trainStat df2 7 1 = { doy := 1, mean := some 50, var := some 200 } := by
  simp [trainStat, df2_windowTemps, listMean, listVar]
  norm_num

/-- C1: `get_opportunities` is exactly the spec's ranking pipeline — drop
contracts below the volume floor, drop analyses whose edge is undefined or
below the minimum edge, sort by expected value descending with missing
values last, truncate to the cap.  The sort models the intended
missing-last descending `sort_values`; the Python line passes the
nonexistent keyword `na_last` to pandas and raises a `TypeError` whenever
the filtered result is nonempty (see the analysis record). -/
theorem ranked_opportunities_pipeline (m : List DoyStat) (cdf : CdfFn)
    (cs : List Contract) (min_edge : ℚ) (min_volume : ℤ) (max_results : ℕ) :
    get_opportunities m cdf cs min_edge min_volume max_results =
      rankSpec m cdf cs min_edge min_volume max_results := by
  unfold get_opportunities rankSpec analyze_contracts
  rw [analyzeLoop_eq, List.nil_append]

/-- C2 (amended): for a contract carrying a date and a threshold, the model
probability maps `greater_than` to the `P(T ≥ threshold)` query, `less_than`
to `P(T ≤ threshold)`, `range` to the same `greater_than` query — but any
other type, including `"unknown"`, yields no probability at all rather than
degrading to the `greater_than` query. -/
theorem model_probability_query_mapping (m : List DoyStat) (cdf : CdfFn)
    (c : Contract) (d : ℤ) (t : ℚ) (hd : c.date = some d)
    (ht : c.temperature = some t) :
    (c.contract_type = "greater_than" →
        calculate_model_probability m cdf c = prob_greater_equal m cdf t d) ∧
    (c.contract_type = "less_than" →
        calculate_model_probability m cdf c = prob_less_equal m cdf t d) ∧
    (c.contract_type = "range" →
        calculate_model_probability m cdf c = prob_greater_equal m cdf t d) ∧
    (c.contract_type ≠ "greater_than" → c.contract_type ≠ "less_than" →
        c.contract_type ≠ "range" → calculate_model_probability m cdf c = none) := by
  have base : calculate_model_probability m cdf c =
      (if c.contract_type = "greater_than" then prob_greater_equal m cdf t d
       else if c.contract_type = "less_than" then prob_less_equal m cdf t d
       else if c.contract_type = "range" then prob_greater_equal m cdf t d
       else none) := by
    unfold calculate_model_probability
    rw [hd, ht]
  refine ⟨fun h => ?_, fun h => ?_, fun h => ?_, fun h1 h2 h3 => ?_⟩
  · rw [base, if_pos h]
  · rw [base, if_neg (by rw [h]; decide), if_pos h]
  · rw [base, if_neg (by rw [h]; decide), if_neg (by rw [h]; decide), if_pos h]
  · rw [base, if_neg h1, if_neg h2, if_neg h3]

/-- C2 witness: a concrete `greater_than` contract is routed to the
`P(T ≥ threshold)` query. -/
theorem model_probability_query_mapping_witness :
    calculate_model_probability m2 linCdf cHalf = prob_greater_equal m2 linCdf 45 1 :=
  (model_probability_query_mapping m2 linCdf cHalf 1 45 rfl rfl).1 rfl

/-- C2 counterexample: a contract of type `"unknown"` with date, threshold
and price present yields no model probability, although the `greater_than`
query on the same inputs does return one — `"unknown"` does not degrade to
the `greater_than` query as the claim states. -/
theorem unknown_type_yields_no_probability :
    calculate_model_probability m2 linCdf cUnknown = none ∧
      prob_greater_equal m2 linCdf 45 1 ≠ none := by
  exact ⟨by decide, by decide⟩

/-- C3: a Kelly stake is returned only when the market price and the model
probability are both strictly inside (0,1) and the Kelly formula with
`b = 1/price - 1` is strictly positive; every returned fraction equals that
formula and lies in (0,1]; and at `market_price = model_probability = 0.5`
no stake is returned. -/
theorem kelly_fraction_sound :
    (∀ (c : Contract) (p f : ℚ), calculate_kelly_fraction c p = some f →
      ∃ mp, c.yes_mid = some mp ∧ 0 < mp ∧ mp < 1 ∧ 0 < p ∧ p < 1 ∧
        0 < ((1 / mp - 1) * p - (1 - p)) / (1 / mp - 1) ∧
        f = ((1 / mp - 1) * p - (1 - p)) / (1 / mp - 1) ∧ 0 < f ∧ f ≤ 1) ∧
    calculate_kelly_fraction cHalf (1/2) = none := by
  constructor
  · intro c p f hf
    cases hmid : c.yes_mid with
    | none =>
      simp only [calculate_kelly_fraction, hmid] at hf
      exact Option.noConfusion hf
    | some mp =>
      simp only [calculate_kelly_fraction, hmid] at hf
      split_ifs at hf with h1 h2 h3
      push_neg at h1 h2
      have hfeq : f = max 0 (((1 / mp - 1) * p - (1 - p)) / (1 / mp - 1)) :=
        (Option.some_inj.mp hf).symm
      have hodds : 0 < 1 / mp - 1 := by
        have h11 : 1 < 1 / mp := (one_lt_div h1.1).mpr h1.2
        linarith
      have hkmax : max 0 (((1 / mp - 1) * p - (1 - p)) / (1 / mp - 1)) =
          ((1 / mp - 1) * p - (1 - p)) / (1 / mp - 1) := max_eq_right h3.le
      have hle1 : ((1 / mp - 1) * p - (1 - p)) / (1 / mp - 1) ≤ 1 := by
        rw [div_le_one hodds]
        nlinarith [mul_pos hodds (show (0:ℚ) < 1 - p by linarith [h2.2])]
      exact ⟨mp, rfl, h1.1, h1.2, h2.1, h2.2, h3, by rw [hfeq, hkmax],
        by rw [hfeq, hkmax]; exact h3, by rw [hfeq, hkmax]; exact hle1⟩
  · norm_num [calculate_kelly_fraction, cHalf]

/-- C3 witness: at `market_price = 0.5`, `model_probability = 0.75` the
returned Kelly fraction `0.5` is strictly positive and at most one. -/
theorem kelly_fraction_sound_witness : 0 < (1/2 : ℚ) ∧ (1/2 : ℚ) ≤ 1 := by
  obtain ⟨mp, hmid, h0, h1, hp0, hp1, hpos, hfeq, hfp, hfle⟩ :=
    kelly_fraction_sound.1 cHalf (3/4) (1/2)
      (by norm_num [calculate_kelly_fraction, cHalf])
  exact ⟨hfp, hfle⟩

/-- C4 (amended): `train` never fails.  When no day-of-year reaches the
minimum sample count it silently returns a model with an empty day-of-year
mapping, and the failure surfaces only later: every parameter lookup on that
model yields the `ValueError` (`none`), the code's only error path. -/
theorem train_insufficient_data_is_silent (df : List Obs) (w : ℤ) (ms : ℕ)
    (h : ∀ d, 1 ≤ d → d ≤ 366 → (windowTemps df w d).length < ms) :
    train df w ms = [] ∧ ∀ doy, paramsForDoy (train df w ms) doy = none := by
  have ht := train_eq_nil_of h
  exact ⟨ht, fun doy => by rw [ht]; exact paramsForDoy_nil doy⟩

/-- C4 witness: training on no observations returns the empty mapping and
the lookup for day 100 then fails. -/
theorem train_insufficient_data_is_silent_witness :
    paramsForDoy (train ([] : List Obs) 7 30) 100 = none :=
  (train_insufficient_data_is_silent [] 7 30
    (fun d _ _ => by simp [windowTemps])).2 100

/-- C4 counterexample: `train` on an empty observation sequence does not
fail with any `InsufficientData` error — the Python body contains no
`raise` — it silently returns the model whose day-of-year mapping is
empty, which the claim says never happens. -/
theorem train_empty_returns_empty_model : train ([] : List Obs) 7 30 = [] := by
  decide

/-- C5 (amended): for every model trained with window radius at least 1 (the
repository always trains with the default 7), the parameter lookup returns
the stored entry when the queried day-of-year is present, and it succeeds
for every query day-of-year in [1,366] whenever the trained model is
nonempty — the windows of day 1 and day 366 coincide for `window ≥ 1`,
which closes the two holes of the 365-based probe ring. -/
theorem params_lookup_total_on_trained (df : List Obs) (w : ℤ) (ms : ℕ)
    (doy : ℤ) (hw : 1 ≤ w) (h1 : 1 ≤ doy) (h2 : doy ≤ 366)
    (hne : train df w ms ≠ []) :
    (∀ s, findDoy (train df w ms) doy = some s →
        paramsForDoy (train df w ms) doy = some s) ∧
    (paramsForDoy (train df w ms) doy).isSome = true := by
  refine ⟨fun s hs => ?_, paramsForDoy_trained_isSome hw h1 h2 hne⟩
  simp [paramsForDoy, hs]

/-- C5 witness: on the concrete trained model the lookup for the absent day
200 succeeds by probing. -/
theorem params_lookup_total_on_trained_witness :
    (paramsForDoy (train df2 7 2) 200).isSome = true :=
  (params_lookup_total_on_trained df2 7 2 200 (by norm_num) (by norm_num)
    (by norm_num) (by decide)).2

/-- C5 counterexample: a model trained with window radius 0 on one
observation at day-of-year 1 is nonempty, yet the lookup for day-of-year 366
fails: the probe ring wraps by 365, so from day 366 it visits only days
2..365 and never day 1 — the lookup does not fail only on empty models. -/
theorem nonempty_trained_model_lookup_fails :
    train df01 0 1 ≠ [] ∧ paramsForDoy (train df01 0 1) 366 = none := by
  exact ⟨by decide, by decide⟩

/-- C6 (amended): the training selection agrees with the circular
(366-wraps-to-1, ring of 365) inclusion test whenever the window crosses a
year boundary (`d - w < 1` or `d + w > 366`) or stays strictly inside
(`2 ≤ d - w` and `d + w ≤ 365`); and the claim's example holds: with
`w = 7` the window around day 2 includes day-of-years 360 through 366.  In
the two remaining interior cases `d - w = 1` and `d + w = 366` the code
tests the plain interval and drops the wrapped neighbour (the
counterexample). -/
theorem window_selection_circular_except_boundary :
    (∀ w d x : ℤ, 1 ≤ w → w ≤ 182 → 1 ≤ d → d ≤ 366 → 1 ≤ x → x ≤ 366 →
      (d - w < 1 ∨ 366 < d + w ∨ (2 ≤ d - w ∧ d + w ≤ 365)) →
      windowMask w d x = circWithin w d x) ∧
    (∀ x : ℤ, 360 ≤ x → x ≤ 366 → windowMask 7 2 x = true) := by
  constructor
  · intro w d x hw1 hw2 hd1 hd2 hx1 hx2 hreg
    rw [Bool.eq_iff_iff, windowMask_eq_true_iff, circWithin_eq_true_iff]
    split_ifs <;> omega
  · intro x h1 h2
    rw [windowMask_eq_true_iff]
    omega

/-- C6 witness: day 360 is selected by the window around day 2 with radius
7, and around day 1 the mask agrees with the circular test at day 366. -/
theorem window_selection_circular_except_boundary_witness :
    windowMask 7 2 360 = true ∧ windowMask 7 1 366 = circWithin 7 1 366 := by
  constructor
  · exact window_selection_circular_except_boundary.2 360 (by omega) (by omega)
  · exact window_selection_circular_except_boundary.1 7 1 366 (by omega) (by omega)
      (by omega) (by omega) (by omega) (by omega) (Or.inl (by omega))

/-- C6 counterexample: with `w = 7` and target day 8 the code tests the
plain interval [1,15]; an observation on day-of-year 366 — which is
circularly within 7 of day 8, since day 366 wraps to day 1 — is not
selected by training. -/
theorem window_drops_wrapped_neighbour :
    windowMask 7 8 366 = false ∧ circWithin 7 8 366 = true ∧
      windowTemps [{ doy := 366, high_temp := some 50 }] 7 8 = [] := by
  exact ⟨by decide, by decide, by decide⟩

/-- C7 (amended): a contract lacking a resolvable date or threshold is
analyzed to status `cannot_evaluate` (totality of the embedding models
"never raises", and the batch loop analyzes contracts independently); but a
contract lacking only the market price, whose probability is computable, is
analyzed to status `complete` with edge, expected value and Kelly fraction
undefined — not to `cannot_evaluate` as the claim states. -/
theorem analyze_contract_missing_fields (m : List DoyStat) (cdf : CdfFn)
    (c : Contract) :
    ((c.date = none ∨ c.temperature = none) →
      (analyze_contract m cdf c).analysis_status = "cannot_evaluate") ∧
    (∀ p, calculate_model_probability m cdf c = some p → c.yes_mid = none →
      (analyze_contract m cdf c).analysis_status = "complete" ∧
      (analyze_contract m cdf c).edge = none ∧
      (analyze_contract m cdf c).expected_value = none ∧
      (analyze_contract m cdf c).kelly_fraction = none) := by
  constructor
  · intro h
    have hnone : calculate_model_probability m cdf c = none := by
      unfold calculate_model_probability
      rcases h with h | h
      · rw [h]
      · rw [h]
        cases c.date <;> rfl
    simp [analyze_contract, hnone]
  · intro p hp hmid
    simp [analyze_contract, hp, hmid, truthyPrice, calculate_kelly_fraction,
      calculate_expected_value]

/-- C7 witness: a contract without a date is `cannot_evaluate`; a contract
with date and threshold but no price is `complete`. -/
theorem analyze_contract_missing_fields_witness :
    (analyze_contract m2 linCdf cNoDate).analysis_status = "cannot_evaluate" ∧
      (analyze_contract m2 linCdf cNoPrice).analysis_status = "complete" :=
  ⟨(analyze_contract_missing_fields m2 linCdf cNoDate).1 (Or.inl rfl),
   ((analyze_contract_missing_fields m2 linCdf cNoPrice).2
      (1 - linCdf (45 - 1/100) (trainStat df2 7 1)) rfl rfl).1⟩

/-- C7 counterexample: a `greater_than` contract with date and threshold but
no market price is analyzed to status `complete`, not `cannot_evaluate` as
the claim requires for a missing price. -/
theorem missing_price_not_cannot_evaluate :
    (analyze_contract m2 linCdf cNoPrice).analysis_status = "complete" ∧
      (analyze_contract m2 linCdf cNoPrice).analysis_status ≠ "cannot_evaluate" := by
  exact ⟨by decide, by decide⟩

/-- C8 (amended): with the Gaussian CDF modelled by any function bounded in
[0,1] and monotone in the threshold, the four single-threshold queries
always return values in [0,1]; `prob_range` returns a value in [-1,1] that
is guaranteed nonnegative only when the shifted lower bound does not exceed
the shifted upper bound — for `low > high` it returns a negative value (the
counterexample). -/
theorem probability_outputs_bounded (m : List DoyStat) (cdf : CdfFn)
    (hb : ∀ y s, 0 ≤ cdf y s ∧ cdf y s ≤ 1)
    (hmono : ∀ (s : DoyStat) (y z : ℚ), y ≤ z → cdf y s ≤ cdf z s)
    (x low high : ℚ) (d : ℤ) (il ihb : Bool) :
    (∀ q, prob_greater_than m cdf x d = some q → 0 ≤ q ∧ q ≤ 1) ∧
    (∀ q, prob_less_than m cdf x d = some q → 0 ≤ q ∧ q ≤ 1) ∧
    (∀ q, prob_greater_equal m cdf x d = some q → 0 ≤ q ∧ q ≤ 1) ∧
    (∀ q, prob_less_equal m cdf x d = some q → 0 ≤ q ∧ q ≤ 1) ∧
    (∀ q, prob_range m cdf low high d il ihb = some q →
      -1 ≤ q ∧ q ≤ 1 ∧
        ((if il then low else low + 1/100) ≤ (if ihb then high + 1/100 else high) →
          0 ≤ q)) := by
  refine ⟨?_, ?_, ?_, ?_, ?_⟩
  · intro q hq
    obtain ⟨s, _, hval⟩ := Option.map_eq_some'.mp hq
    replace hval : 1 - cdf x s = q := hval
    obtain ⟨hb1, hb2⟩ := hb x s
    constructor <;> linarith
  · intro q hq
    obtain ⟨s, _, hval⟩ := Option.map_eq_some'.mp hq
    replace hval : cdf x s = q := hval
    obtain ⟨hb1, hb2⟩ := hb x s
    constructor <;> linarith
  · intro q hq
    obtain ⟨s, _, hval⟩ := Option.map_eq_some'.mp hq
    replace hval : 1 - cdf (x - 1/100) s = q := hval
    obtain ⟨hb1, hb2⟩ := hb (x - 1/100) s
    constructor <;> linarith
  · intro q hq
    obtain ⟨s, _, hval⟩ := Option.map_eq_some'.mp hq
    replace hval : cdf (x + 1/100) s = q := hval
    obtain ⟨hb1, hb2⟩ := hb (x + 1/100) s
    constructor <;> linarith
  · intro q hq
    obtain ⟨s, _, hval⟩ := Option.map_eq_some'.mp hq
    replace hval : cdf (if ihb then high + 1/100 else high) s -
        cdf (if il then low else low + 1/100) s = q := hval
    obtain ⟨hh1, hh2⟩ := hb (if ihb then high + 1/100 else high) s
    obtain ⟨hl1, hl2⟩ := hb (if il then low else low + 1/100) s
    refine ⟨by linarith, by linarith, fun hle => ?_⟩
    have := hmono s _ _ hle
    linarith

/-- C8 witness: on the concrete trained model `P(T > 45)` on day 1 is `3/4`
and lies in [0,1]. -/
theorem probability_outputs_bounded_witness : 0 ≤ (3/4 : ℚ) ∧ (3/4 : ℚ) ≤ 1 := by
  refine (probability_outputs_bounded m2 linCdf
      (fun y s => ⟨linCdf_nonneg y s, linCdf_le_one y s⟩)
      (fun s y z hyz => linCdf_mono s hyz) 45 0 0 1 true true).1 (3/4) ?_
  have hstat : trainStat df2 7 1 = { doy := 1, mean := some 50, var := some 200 } :=
    df2_stat
  simp [prob_greater_than, m2_params_one, hstat, linCdf]
  norm_num

/-- C8 counterexample: `prob_range` with `low = 60 > high = 40` on the
concrete trained model returns `-1`, which is not in [0,1] — the claim that
every probability query returns a value in [0,1] fails for `prob_range`. -/
theorem prob_range_can_be_negative :
    prob_range m2 linCdf 60 40 1 true false = some (-1) ∧ ((-1 : ℚ) < 0) := by
  constructor
  · have hstat : trainStat df2 7 1 = { doy := 1, mean := some 50, var := some 200 } :=
      df2_stat
    simp [prob_range, m2_params_one, hstat, linCdf]
    norm_num
  · norm_num

/-- C9 (amended): for every model trained with `min_samples ≥ 2` (so that
the `ddof=1` standard deviation is defined) and every stored day-of-year:
the stored variance — the square of the stored standard deviation — is
defined and nonnegative, the stored mean lies between every lower and upper
bound of the contributing window (hence between its minimum and maximum),
and at least `min_samples` observations contributed.  For `min_samples ≤ 1`
a day with a single sample stores a `NaN` standard deviation (the
counterexample). -/
theorem trained_stats_invariant (df : List Obs) (w : ℤ) (ms : ℕ) (hms : 2 ≤ ms) :
    ∀ s ∈ train df w ms,
      (∃ v, s.var = some v ∧ 0 ≤ v) ∧
      (∃ μ, s.mean = some μ ∧
        (∀ A, (∀ x ∈ windowTemps df w s.doy, A ≤ x) → A ≤ μ) ∧
        (∀ B, (∀ x ∈ windowTemps df w s.doy, x ≤ B) → μ ≤ B)) ∧
      ms ≤ (windowTemps df w s.doy).length := by
  intro s hs
  obtain ⟨_, hq, hseq⟩ := of_mem_train hs
  have hlen2 : 2 ≤ (windowTemps df w s.doy).length := le_trans hms hq
  have hne : windowTemps df w s.doy ≠ [] := by
    intro h
    rw [h] at hlen2
    simp at hlen2
  obtain ⟨v, hv, hv0⟩ := listVar_nonneg hlen2
  obtain ⟨μ, hμ, hμlo, hμhi⟩ := listMean_bounds hne
  refine ⟨⟨v, ?_, hv0⟩, ⟨μ, ?_, hμlo, hμhi⟩, hq⟩
  · rw [hseq]
    exact hv
  · rw [hseq]
    exact hμ

/-- C9 witness: in the concrete two-sample training the stored variance of
day 1 is defined and nonnegative. -/
theorem trained_stats_invariant_witness :
    ∃ v, (trainStat df2 7 1).var = some v ∧ 0 ≤ v :=
  (trained_stats_invariant df2 7 2 (le_refl 2) (trainStat df2 7 1)
    (trainStat_mem (by omega) (by omega) (by decide))).1

/-- C9 counterexample: training with `min_samples = 1` on a single
observation stores an entry whose standard deviation is the pandas `NaN`
(`ddof=1` with one sample; modelled `none`), so the stored standard
deviation of a trained model is not always a nonnegative real. -/
theorem trained_sigma_can_be_nan :
    train df01 0 1 = [{ doy := 1, mean := some 50, var := none }] := by
  rw [df01_train_eq, df01_stat]

/-- C10: a price of exactly zero is treated as absent: the parser maps a raw
`yes_bid`/`yes_ask` of 0 cents to an absent side so it never contributes to
the mid price, and `analyze_contract` leaves edge and expected value
undefined when `yes_mid` is `0.0`. -/
theorem zero_price_treated_as_absent :
    (∀ (mkt : RawMarket) (temp : Option ℚ) (d : Option ℤ) (ct : String),
      mkt.yes_bid = some 0 →
        (parse_contract mkt temp d ct).yes_bid = none ∧
        (parse_contract mkt temp d ct).yes_mid = parseSide mkt.yes_ask) ∧
    (∀ (mkt : RawMarket) (temp : Option ℚ) (d : Option ℤ) (ct : String),
      mkt.yes_ask = some 0 →
        (parse_contract mkt temp d ct).yes_ask = none ∧
        (parse_contract mkt temp d ct).yes_mid = parseSide mkt.yes_bid) ∧
    (∀ (m : List DoyStat) (cdf : CdfFn) (c : Contract), c.yes_mid = some 0 →
      (analyze_contract m cdf c).edge = none ∧
      (analyze_contract m cdf c).expected_value = none) := by
  have hps : parseSide (some (0 : ℤ)) = none := by simp [parseSide]
  refine ⟨?_, ?_, ?_⟩
  · intro mkt temp d ct h
    refine ⟨by simp [parse_contract, h, hps], ?_⟩
    show mkMid (parseSide mkt.yes_bid) (parseSide mkt.yes_ask) = parseSide mkt.yes_ask
    rw [h, hps]
    cases parseSide mkt.yes_ask <;> simp [mkMid]
  · intro mkt temp d ct h
    refine ⟨by simp [parse_contract, h, hps], ?_⟩
    show mkMid (parseSide mkt.yes_bid) (parseSide mkt.yes_ask) = parseSide mkt.yes_bid
    rw [h, hps]
    cases parseSide mkt.yes_bid <;> simp [mkMid]
  · intro m cdf c h
    cases hcp : calculate_model_probability m cdf c with
    | none => simp [analyze_contract, hcp]
    | some p => simp [analyze_contract, hcp, h, truthyPrice]

/-- C10 witness: a raw bid of 0 cents parses to an absent side, and a
contract with `yes_mid = 0.0` gets no edge. -/
theorem zero_price_treated_as_absent_witness :
    (parse_contract mkt0 none none "unknown").yes_bid = none ∧
      (analyze_contract m2 linCdf cZero).edge = none :=
  ⟨(zero_price_treated_as_absent.1 mkt0 none none "unknown" rfl).1,
   (zero_price_treated_as_absent.2.2 m2 linCdf cZero rfl).1⟩

end KalshiWeather
